import Mathlib

/-!
Verification of `pkg/python/py_compile.go` from datawire/layertool.

The file embeds the Go code shallowly:

* Go's `path` package (pure, slash-separated, lexical) is modelled by the
  `pathClean`, `pathJoin2`, `pathBase`, `pathDir` functions below, working on
  `String`/`List Char`.
* The effectful closure returned by `ExternalCompiler` is modelled by
  `compilerClosure`, a pure function over an `Effects` oracle that records the
  outcome of each system call the Go code performs (in program order), and
  returns a `RunOut` trace: the two return values of the Go closure, plus the
  observable effect calls (the command that was run, the file that was written
  into the workspace, whether the deferred `os.RemoveAll` ran).
* `time.Time` surfaces in the code only through `IsZero` and `Unix`; it is
  modelled as `Option Int` (`none` = the zero time, `some u` = a non-zero time
  with Unix seconds `u`).
* Bytes are `List Nat`, errors are opaque `String`s.
-/

namespace PyCompile

/-! ## Model of Go's `path` package (slash-paths, lexical operations) -/

/-- Split a character list on `'/'` separators; always returns at least one
(possibly empty) segment, exactly like splitting a string on a separator. -/
def splitSlash : List Char → List (List Char)
  | [] => [[]]
  | c :: cs =>
    match splitSlash cs with
    | [] => [[]]
    | s :: rest => if c = '/' then [] :: s :: rest else (c :: s) :: rest

/-- Re-join segments with `'/'`; left inverse of `splitSlash`. -/
def unsplit : List (List Char) → List Char
  | [] => []
  | [s] => s
  | s :: s' :: rest => s ++ '/' :: unsplit (s' :: rest)

/-- The stack-based segment processing of Go's `path.Clean`: drop empty and
`"."` segments, resolve `".."` against the segment stack (kept when it cannot
be resolved and the path is relative, dropped at the root of a rooted path). -/
def cleanSegs (rooted : Bool) (acc : List (List Char)) : List (List Char) → List (List Char)
  | [] => acc.reverse
  | seg :: rest =>
    if seg = [] ∨ seg = ['.'] then cleanSegs rooted acc rest
    else if seg = ['.', '.'] then
      match acc with
      | [] => if rooted then cleanSegs rooted [] rest else cleanSegs rooted [['.', '.']] rest
      | top :: acc' =>
        if top = ['.', '.'] then cleanSegs rooted (['.', '.'] :: top :: acc') rest
        else cleanSegs rooted acc' rest
    else cleanSegs rooted (seg :: acc) rest

/-- Go `path.Clean`: lexical cleaning of a slash-path. -/
def pathClean (s : String) : String :=
  if s.data = [] then "."
  else if s.data.head? = some '/' then
    let segs := cleanSegs true [] (splitSlash s.data)
    if segs = [] then "/" else ⟨'/' :: unsplit segs⟩
  else
    let segs := cleanSegs false [] (splitSlash s.data)
    if segs = [] then "." else ⟨unsplit segs⟩

/-- Go `path.Join` restricted to two elements (the only arity the code uses):
empty elements are skipped, the rest joined with `"/"` and cleaned. -/
def pathJoin2 (a b : String) : String :=
  if a = "" then (if b = "" then "" else pathClean b)
  else if b = "" then pathClean a
  else pathClean (a ++ "/" ++ b)

/-- Characters of `l` after its last `'/'` (all of `l` when there is none). -/
def afterLastSlash (l : List Char) : List Char :=
  (l.reverse.takeWhile (fun c => decide (c ≠ '/'))).reverse

/-- Characters of `l` up to and including its last `'/'` (Go `path.Split`'s
`dir` half). -/
def dirRaw (l : List Char) : List Char :=
  (l.reverse.dropWhile (fun c => decide (c ≠ '/'))).reverse

/-- Go `path.Base`: last element of the path after stripping trailing
slashes; `"."` for the empty path, `"/"` for a path of only slashes. -/
def pathBase (s : String) : String :=
  if s.data = [] then "."
  else if afterLastSlash ((s.data.reverse.dropWhile (fun c => decide (c = '/'))).reverse) = []
  then "/"
  else ⟨afterLastSlash ((s.data.reverse.dropWhile (fun c => decide (c = '/'))).reverse)⟩

/-- Go `path.Dir`: everything up to the final slash, cleaned. -/
def pathDir (s : String) : String :=
  pathClean ⟨dirRaw s.data⟩

/-- Go `strings.HasSuffix`. -/
def hasSuffix (s suffix : String) : Bool :=
  suffix.data.isSuffixOf s.data

example : pathClean "//pkg" = "/pkg" := by decide
example : pathClean "a/./b//c/.." = "a/b" := by decide
example : pathDir "pkg/mod.py" = "pkg" := by decide
example : pathDir "mod.py" = "." := by decide
example : pathBase "pkg/mod.py" = "mod.py" := by decide
example : pathJoin2 "/" "pkg" = "/pkg" := by decide
example : pathJoin2 "pkg" "__pycache__/mod.pyc" = "pkg/__pycache__/mod.pyc" := by decide
example : pathJoin2 "." "mod.pyc" = "mod.pyc" := by decide
example : hasSuffix "mod.cpython-39.pyc" ".pyc" = true := by decide
example : hasSuffix "mod.py" ".pyc" = false := by decide

/-! ## Data model -/

deriving instance DecidableEq for Except

/-- Modelled from the spec: `fsutil.FileReference` lives outside `src/`; per
the spec a SourceArtifact carries a virtual full name (slash-delimited), a
base name (the base of the full name), content openable on demand, and a
modification time.  `Open`/`ReadAll` deliver `content` when they do not
fail (failure outcomes live in `Effects`). -/
structure FileReference where
  fullName : String
  content : List Nat
  modTime : Int
  deriving DecidableEq, Repr

/-- Modelled from the spec: the SourceArtifact's base name, `in.Name()`. -/
def FileReference.name (f : FileReference) : String :=
  pathBase f.fullName

/-- The slice of `fs.FileInfo` stored by the collector (`d.Info()`). -/
structure FileInfo where
  name : String
  size : Int
  mode : Nat
  modTime : Int
  isDir : Bool
  deriving DecidableEq, Repr

/-- `fsutil.InMemFileReference{FileInfo: info, MFullName: fullname, MContent: content}`. -/
structure InMemFileReference where
  fileInfo : FileInfo
  mFullName : String
  mContent : List Nat
  deriving DecidableEq, Repr

/-- One callback invocation of `fs.WalkDir` over the workspace: the entry's
slash-path `p` relative to the workspace root, its `DirEntry.IsDir` flag, the
walk error `e` handed to the callback, and the outcomes of the calls the
callback may make (`d.Info()`, `dirFS.Open(p)`, `io.ReadAll(fh)`). -/
structure WalkEntry where
  p : String
  isDir : Bool
  walkErr : Option String
  infoRes : Except String FileInfo
  openRes : Option String
  readRes : Except String (List Nat)
  deriving DecidableEq, Repr

/-- Outcomes of the system calls made by one invocation of the closure, in
program order.  `Option String` fields are `none` on success; `environ` is
what `os.Environ()` returns at invocation time; `walk` is the sequence of
callback invocations `fs.WalkDir` performs over the workspace produced by a
successful compiler run. -/
structure Effects where
  mkdirTemp : Except String String
  openFile : Option String
  readAll : Option String
  closeFile : Option String
  writeFile : Option String
  chtimes : Option String
  environ : List String
  run : Option String
  walk : List WalkEntry
  removeAll : Option String
  deriving DecidableEq, Repr

/-- The external command as configured on `cmd` before `Run`: program path,
argument list after the program, working directory, and the `Env` field
(`none` = left untouched, so the process inherits the environment). -/
structure Cmd where
  exe : String
  args : List String
  dir : String
  env : Option (List String)
  deriving DecidableEq, Repr

/-- Result of resolving the compiler program at `ExternalCompiler` time:
absolute executable path plus the fixed trailing arguments `cmdline[1:]`. -/
structure Config where
  exe : String
  rest : List String
  deriving DecidableEq, Repr

/-- Observable outcome of one invocation of the closure: the two Go return
values (`compiled`, `err`), whether the deferred `os.RemoveAll` ran, and the
effect calls made on the way (command run, file written, times set). -/
structure RunOut where
  compiled : Option (List (String × InMemFileReference))
  err : Option String
  removeAttempted : Bool
  cmd : Option Cmd
  wsWrite : Option (String × List Nat)
  wsChtimes : Option (String × Int × Int)
  deriving DecidableEq, Repr

/-! ## The compiler closure -/

/-- Go map assignment `m[k] = v` on an association list: overwrite the
binding when the key is present, append otherwise. -/
def mapInsert (k : String) (v : InMemFileReference) :
    List (String × InMemFileReference) → List (String × InMemFileReference)
  | [] => [(k, v)]
  | (k', v') :: rest =>
    if k' = k then (k, v) :: rest else (k', v') :: mapInsert k v rest

/-- The key under which an included entry is stored:
`fullname := path.Join(path.Dir(in.FullName()), p)`. -/
def vfsKey (inFullName p : String) : String :=
  pathJoin2 (pathDir inFullName) p

/-- The `Env` field of the command: left untouched (`none`) when
`clampTime.IsZero()`, otherwise `os.Environ()` plus the two overrides
`PYTHONHASHSEED=0` and `SOURCE_DATE_EPOCH=<clampTime.Unix()>`. -/
def cmdEnvField (environ : List String) (clamp : Option Int) : Option (List String) :=
  match clamp with
  | none => none
  | some u => some (environ ++ ["PYTHONHASHSEED=0", "SOURCE_DATE_EPOCH=" ++ toString u])

/-- One callback invocation of the `fs.WalkDir` walk function in the
collection phase, transcribed from the Go callback body. -/
def collectStep (inFullName : String) (vfs : List (String × InMemFileReference))
    (w : WalkEntry) : Except String (List (String × InMemFileReference)) :=
  match w.walkErr with
  | some e => .error e
  | none =>
    if w.p = "." then .ok vfs
    else if ¬ hasSuffix w.p ".pyc" ∧ w.isDir = false then .ok vfs
    else
      match w.infoRes with
      | .error e => .error e
      | .ok info =>
        if w.isDir then
          .ok (mapInsert (vfsKey inFullName w.p)
                ⟨info, vfsKey inFullName w.p, []⟩ vfs)
        else
          match w.openRes with
          | some e => .error e
          | none =>
            match w.readRes with
            | .error e => .error e
            | .ok content =>
              .ok (mapInsert (vfsKey inFullName w.p)
                    ⟨info, vfsKey inFullName w.p, content⟩ vfs)

/-- `fs.WalkDir` over the recorded callback sequence: the first callback
error aborts the walk and becomes the walk's error. -/
def walkCollect (inFullName : String) (vfs : List (String × InMemFileReference)) :
    List WalkEntry → Except String (List (String × InMemFileReference))
  | [] => .ok vfs
  | w :: rest =>
    match collectStep inFullName vfs w with
    | .error e => .error e
    | .ok vfs' => walkCollect inFullName vfs' rest

/-- Host path of the copied input file, `filepath.Join(tmpdir,
path.Base(in.FullName()))` on a slash-separated host (its internal cleaning
is immaterial to every claim: the path never reaches the returned result). -/
def hostJoin (tmpdir b : String) : String :=
  tmpdir ++ "/" ++ b

/-- The closure body between the successful `os.MkdirTemp` and the deferred
`os.RemoveAll`: input copy, compiler invocation, artifact collection.  Each
Go `return` is a leaf; `removeAttempted` is filled in by `compilerClosure`. -/
def runBody (cfg : Config) (e : Effects) (clamp : Option Int)
    (inp : FileReference) (tmpdir : String) : RunOut :=
  match e.openFile with
  | some er => ⟨none, some er, false, none, none, none⟩
  | none =>
  match e.readAll with
  | some er => ⟨none, some er, false, none, none, none⟩
  | none =>
  match e.closeFile with
  | some er => ⟨none, some er, false, none, none, none⟩
  | none =>
  let filename := hostJoin tmpdir (pathBase inp.fullName)
  match e.writeFile with
  | some er => ⟨none, some er, false, none, some (filename, inp.content), none⟩
  | none =>
  match e.chtimes with
  | some er => ⟨none, some er, false, none, some (filename, inp.content),
                some (filename, inp.modTime, inp.modTime)⟩
  | none =>
  let cmd : Cmd :=
    { exe := cfg.exe
      args := cfg.rest ++ ["-p", pathJoin2 "/" (pathDir inp.fullName), inp.name]
      dir := tmpdir
      env := cmdEnvField e.environ clamp }
  match e.run with
  | some er => ⟨none, some er, false, some cmd, some (filename, inp.content),
                some (filename, inp.modTime, inp.modTime)⟩
  | none =>
  match walkCollect inp.fullName [] e.walk with
  | .error er => ⟨none, some er, false, some cmd, some (filename, inp.content),
                  some (filename, inp.modTime, inp.modTime)⟩
  | .ok vfs => ⟨some vfs, none, false, some cmd, some (filename, inp.content),
                some (filename, inp.modTime, inp.modTime)⟩

/-- The closure returned by `ExternalCompiler`.  A failing `os.MkdirTemp`
returns at once (the deferred remove is not yet registered); otherwise the
deferred `maybeSetErr(os.RemoveAll(tmpdir))` runs on every exit path of the
body and only fills `err` when the body left it `nil`. -/
def compilerClosure (cfg : Config) (e : Effects) (clamp : Option Int)
    (inp : FileReference) : RunOut :=
  match e.mkdirTemp with
  | .error er => ⟨none, some er, false, none, none, none⟩
  | .ok tmpdir =>
    let b := runBody cfg e clamp inp tmpdir
    { b with
      err := match b.err with
             | some er => some er
             | none => e.removeAll
      removeAttempted := true }

/-- Outcome of the body of `ExternalCompiler` itself (program resolution):
it reads `cmdline[0]` before anything else, which panics in Go when the
variadic `cmdline` is empty. `lookPath` and `abs` are the outcomes of
`dexec.LookPath` and `filepath.Abs`. -/
inductive SetupOutcome where
  | panicked
  | failed (e : String)
  | ok (cfg : Config)
  deriving DecidableEq, Repr

/-- `ExternalCompiler(cmdline...)` up to returning the closure's
configuration. -/
def ExternalCompiler (lookPath abs : String → Except String String)
    (cmdline : List String) : SetupOutcome :=
  match cmdline.head? with
  | none => .panicked
  | some prog =>
    match lookPath prog with
    | .error e => .failed e
    | .ok exe =>
      match abs exe with
      | .error e => .failed e
      | .ok exeAbs => .ok ⟨exeAbs, cmdline.tail⟩

/-- The first error among the sequential phases of one invocation (workspace
setup, input copy, compiler run, collection), `none` when every phase
succeeds.  This is the "earlier phase" error of the teardown discipline. -/
def firstPhaseErr (e : Effects) (inp : FileReference) : Option String :=
  match e.mkdirTemp with
  | .error er => some er
  | .ok _ =>
  match e.openFile with
  | some er => some er
  | none =>
  match e.readAll with
  | some er => some er
  | none =>
  match e.closeFile with
  | some er => some er
  | none =>
  match e.writeFile with
  | some er => some er
  | none =>
  match e.chtimes with
  | some er => some er
  | none =>
  match e.run with
  | some er => some er
  | none =>
  match walkCollect inp.fullName [] e.walk with
  | .error er => some er
  | .ok _ => none

/-! ## Concrete exemplar inputs (used by the witnesses) -/

def cfgEx : Config := ⟨"/usr/bin/python3", ["-m", "compileall"]⟩

def inpEx : FileReference := ⟨"pkg/mod.py", [104, 105], 1600000000⟩

def infoRootEx : FileInfo := ⟨".", 0, 493, 1600000000, true⟩

def infoPyEx : FileInfo := ⟨"mod.py", 2, 420, 1600000000, false⟩

def infoCacheEx : FileInfo := ⟨"__pycache__", 0, 493, 1600000000, true⟩

def infoPycEx : FileInfo := ⟨"mod.cpython-39.pyc", 7, 420, 1600000000, false⟩

def entRootEx : WalkEntry := ⟨".", true, none, .ok infoRootEx, none, .ok []⟩

def entCacheEx : WalkEntry := ⟨"__pycache__", true, none, .ok infoCacheEx, none, .ok []⟩

def entPycEx : WalkEntry :=
  ⟨"__pycache__/mod.cpython-39.pyc", false, none, .ok infoPycEx, none,
   .ok [1, 2, 3, 4, 5, 6, 7]⟩

def entStrayEx : WalkEntry := ⟨"mod.py", false, none, .ok infoPyEx, none, .ok [104, 105]⟩

/-- Workspace after a typical successful `compileall` run: the root, the
`__pycache__` directory, the compiled `.pyc` below it, and the input file the
compiler left behind. -/
def walkEx : List WalkEntry := [entRootEx, entCacheEx, entPycEx, entStrayEx]

/-- Every effect succeeds. -/
def effOk : Effects :=
  ⟨.ok "/tmp/ocibuild-pycompile.111", none, none, none, none, none,
   ["PATH=/usr/bin"], none, walkEx, none⟩

/-- Like `effOk`, but the walk ends in an entry whose callback receives an
I/O error. -/
def effWalkErr : Effects :=
  { effOk with
    walk := walkEx ++ [⟨"stray.pyc", false, some "io error", .ok infoPycEx, none, .ok []⟩] }

/-- The collection result of `effOk`'s walk for the input `inpEx`. -/
def vfsEx : List (String × InMemFileReference) :=
  [("pkg/__pycache__", ⟨infoCacheEx, "pkg/__pycache__", []⟩),
   ("pkg/__pycache__/mod.cpython-39.pyc",
    ⟨infoPycEx, "pkg/__pycache__/mod.cpython-39.pyc", [1, 2, 3, 4, 5, 6, 7]⟩)]

/-- The command built by the closure for `cfgEx`/`inpEx` without clamping. -/
def cmdNoClampEx : Cmd :=
  ⟨"/usr/bin/python3", ["-m", "compileall", "-p", "/pkg", "mod.py"],
   "/tmp/ocibuild-pycompile.111", none⟩

/-- The command built by the closure for `cfgEx`/`inpEx` with clamp time
1600000000. -/
def cmdClampEx : Cmd :=
  ⟨"/usr/bin/python3", ["-m", "compileall", "-p", "/pkg", "mod.py"],
   "/tmp/ocibuild-pycompile.111",
   some ["PATH=/usr/bin", "PYTHONHASHSEED=0", "SOURCE_DATE_EPOCH=1600000000"]⟩

/-- Program resolution oracle for the witnesses. -/
def lookPathEx : String → Except String String := fun s => .ok ("/usr/bin/" ++ s)

/-- Absolute-path oracle for the witnesses. -/
def absEx : String → Except String String := fun s => .ok s

/-! ## Clean slash-paths

A slash-path is `goodRel` when it is nonempty and all of its segments are
plain names (no empty segment, no `"."`, no `".."`): the shape of every
relative path `fs.WalkDir` reports below the root, and of every ordinary
virtual directory. On such paths Go's lexical cleaning is the identity, and
`path.Join` is literally concatenation with a `"/"` in between. -/

def goodSeg (seg : List Char) : Prop :=
  seg ≠ [] ∧ seg ≠ ['.'] ∧ seg ≠ ['.', '.']

instance (seg : List Char) : Decidable (goodSeg seg) := by
  unfold goodSeg; infer_instance

def goodRel (s : String) : Prop :=
  s.data ≠ [] ∧ ∀ seg ∈ splitSlash s.data, goodSeg seg

instance (s : String) : Decidable (goodRel s) := by
  unfold goodRel; infer_instance

theorem splitSlash_ne_nil (l : List Char) : splitSlash l ≠ [] := by
  cases l with
  | nil => simp [splitSlash]
  | cons c cs =>
    simp only [splitSlash]
    split
    · simp
    · split <;> simp

theorem splitSlash_append (a b : List Char) :
    splitSlash (a ++ '/' :: b) = splitSlash a ++ splitSlash b := by
  induction a with
  | nil =>
    simp only [List.nil_append, splitSlash]
    cases h : splitSlash b with
    | nil => exact absurd h (splitSlash_ne_nil b)
    | cons s rest => simp
  | cons c cs ih =>
    simp only [List.cons_append, splitSlash]
    simp only [List.append_eq]
    rw [ih]
    cases h : splitSlash cs with
    | nil => exact absurd h (splitSlash_ne_nil cs)
    | cons s rest =>
      by_cases hc : c = '/' <;> simp [hc]

theorem unsplit_append (A B : List (List Char)) (hA : A ≠ []) (hB : B ≠ []) :
    unsplit (A ++ B) = unsplit A ++ '/' :: unsplit B := by
  induction A with
  | nil => exact absurd rfl hA
  | cons s A' ih =>
    cases A' with
    | nil =>
      cases B with
      | nil => exact absurd rfl hB
      | cons t B' => simp [unsplit]
    | cons s' A'' =>
      have h := ih (by simp)
      rw [List.cons_append] at h
      simp only [List.cons_append]
      calc unsplit (s :: s' :: (A'' ++ B))
          = s ++ '/' :: unsplit (s' :: (A'' ++ B)) := rfl
        _ = s ++ '/' :: (unsplit (s' :: A'') ++ '/' :: unsplit B) := by rw [h]
        _ = (s ++ '/' :: unsplit (s' :: A'')) ++ '/' :: unsplit B := by simp
        _ = unsplit (s :: s' :: A'') ++ '/' :: unsplit B := rfl

theorem unsplit_splitSlash (l : List Char) : unsplit (splitSlash l) = l := by
  induction l with
  | nil => simp [splitSlash, unsplit]
  | cons c cs ih =>
    cases h : splitSlash cs with
    | nil => exact absurd h (splitSlash_ne_nil cs)
    | cons s rest =>
      rw [h] at ih
      simp only [splitSlash, h]
      by_cases hc : c = '/'
      · subst hc
        simp only [if_pos rfl, unsplit]
        simpa using ih
      · rw [if_neg hc]
        cases rest with
        | nil => simp only [unsplit] at ih ⊢; rw [← ih]
        | cons t rest' =>
          simp only [unsplit] at ih ⊢
          rw [← ih]
          simp

theorem cleanSegs_good (rooted : Bool) :
    ∀ (l acc : List (List Char)), (∀ s ∈ l, goodSeg s) →
      cleanSegs rooted acc l = acc.reverse ++ l := by
  intro l
  induction l with
  | nil => intro acc _; simp [cleanSegs]
  | cons seg rest ih =>
    intro acc h
    have hs : goodSeg seg := h seg (by simp)
    have hrest : ∀ s ∈ rest, goodSeg s := fun s hm => h s (by simp [hm])
    unfold cleanSegs
    rw [if_neg, if_neg hs.2.2, ih (seg :: acc) hrest]
    · simp
    · push_neg
      exact ⟨hs.1, hs.2.1⟩

theorem goodRel_head_ne_slash (s : String) (h : goodRel s) :
    ¬ s.data.head? = some '/' := by
  intro hc
  obtain ⟨hne, hall⟩ := h
  cases hd : s.data with
  | nil => exact hne hd
  | cons c cs =>
    rw [hd] at hc
    simp only [List.head?_cons, Option.some.injEq] at hc
    subst hc
    rw [hd] at hall
    have hmem : ([] : List Char) ∈ splitSlash ('/' :: cs) := by
      simp only [splitSlash]
      cases h2 : splitSlash cs with
      | nil => exact absurd h2 (splitSlash_ne_nil cs)
      | cons s' rest => simp
    exact (hall [] hmem).1 rfl

theorem string_mk_data (s : String) : String.mk s.data = s := rfl

theorem pathClean_good (s : String) (h : goodRel s) : pathClean s = s := by
  obtain ⟨hne, hall⟩ := h
  unfold pathClean
  rw [if_neg hne, if_neg (goodRel_head_ne_slash s ⟨hne, hall⟩)]
  simp only [cleanSegs_good false (splitSlash s.data) [] hall, List.reverse_nil,
    List.nil_append]
  rw [if_neg (splitSlash_ne_nil s.data), unsplit_splitSlash]

theorem string_data_concat (d p : String) :
    (d ++ "/" ++ p).data = d.data ++ '/' :: p.data := by
  simp [String.data_append]

theorem goodRel_concat (d p : String) (hd : goodRel d) (hp : goodRel p) :
    goodRel (d ++ "/" ++ p) := by
  constructor
  · rw [string_data_concat]
    simp
  · rw [string_data_concat, splitSlash_append]
    intro seg hm
    rcases List.mem_append.mp hm with h1 | h2
    · exact hd.2 seg h1
    · exact hp.2 seg h2

theorem goodRel_ne_empty (s : String) (h : goodRel s) : s ≠ "" := by
  intro hc
  subst hc
  exact h.1 rfl

theorem pathJoin2_good (d p : String) (hd : goodRel d) (hp : goodRel p) :
    pathJoin2 d p = d ++ "/" ++ p := by
  unfold pathJoin2
  rw [if_neg (goodRel_ne_empty d hd), if_neg (goodRel_ne_empty p hp)]
  exact pathClean_good _ (goodRel_concat d p hd hp)

/-! ## A path ends in `".pyc"` exactly when its base name does -/

theorem isPrefixOf_takeWhile (q : Char → Bool) :
    ∀ (cr r : List Char), (∀ c ∈ cr, q c = true) →
      cr.isPrefixOf (r.takeWhile q) = cr.isPrefixOf r := by
  intro cr
  induction cr with
  | nil => intro r _; simp [List.isPrefixOf]
  | cons c cs ih =>
    intro r h
    cases r with
    | nil => simp [List.takeWhile]
    | cons a as =>
      by_cases hqa : q a = true
      · rw [List.takeWhile_cons_of_pos hqa]
        show ((c == a) && cs.isPrefixOf (as.takeWhile q)) =
          ((c == a) && cs.isPrefixOf as)
        rw [ih as (fun x hx => h x (by simp [hx]))]
      · rw [List.takeWhile_cons_of_neg (by simpa using hqa)]
        show (c :: cs).isPrefixOf ([] : List Char) = ((c == a) && cs.isPrefixOf as)
        have hca : (c == a) = false := by
          rw [beq_eq_false_iff_ne]
          intro hcc
          exact hqa (hcc ▸ h c (by simp))
        simp [List.isPrefixOf, hca]

/-- On a nonempty path that does not end with a slash (the shape of every
path `fs.WalkDir` reports), the `".pyc"` test on the whole relative path and
on its base name agree. -/
theorem hasSuffix_pathBase (s : String) (hne : s.data ≠ [])
    (hlast : s.data.getLast? ≠ some '/') :
    hasSuffix (pathBase s) ".pyc" = hasSuffix s ".pyc" := by
  obtain ⟨a, as, hr⟩ : ∃ a as, s.data.reverse = a :: as := by
    cases hrr : s.data.reverse with
    | nil => exact absurd (by simpa using hrr) hne
    | cons a as => exact ⟨a, as, rfl⟩
  have ha : ¬ a = '/' := by
    intro hc
    apply hlast
    rw [← List.head?_reverse, hr, hc]
    rfl
  have hdrop :
      (s.data.reverse.dropWhile (fun c => decide (c = '/'))).reverse = s.data := by
    rw [hr, List.dropWhile_cons_of_neg (by simpa using ha), ← hr, List.reverse_reverse]
  have htake :
      s.data.reverse.takeWhile (fun c => decide (c ≠ '/')) =
        a :: as.takeWhile (fun c => decide (c ≠ '/')) := by
    rw [hr, List.takeWhile_cons_of_pos (by simpa using ha)]
  unfold pathBase afterLastSlash
  rw [if_neg hne, hdrop, htake]
  rw [if_neg (by simp)]
  show (".pyc".data.isSuffixOf
      (a :: as.takeWhile (fun c => decide (c ≠ '/'))).reverse) =
    (".pyc".data.isSuffixOf s.data)
  show (".pyc".data.reverse.isPrefixOf
      (a :: as.takeWhile (fun c => decide (c ≠ '/'))).reverse.reverse) =
    (".pyc".data.reverse.isPrefixOf s.data.reverse)
  rw [List.reverse_reverse, ← htake, hr]
  rw [isPrefixOf_takeWhile _ _ _ (by decide)]

/-! ## Characterization of the invocation phase -/

/-- Whenever the closure reaches the invocation phase (a command was
configured), the workspace was created, the command is exactly the one the
code builds, and the input file has been written and re-timestamped. -/
theorem closure_cmd_spec (cfg : Config) (e : Effects) (clamp : Option Int)
    (inp : FileReference) (c : Cmd)
    (h : (compilerClosure cfg e clamp inp).cmd = some c) :
    ∃ t, e.mkdirTemp = .ok t ∧
      c = ⟨cfg.exe,
           cfg.rest ++ ["-p", pathJoin2 "/" (pathDir inp.fullName), inp.name],
           t, cmdEnvField e.environ clamp⟩ ∧
      (compilerClosure cfg e clamp inp).wsWrite =
        some (hostJoin t (pathBase inp.fullName), inp.content) ∧
      (compilerClosure cfg e clamp inp).wsChtimes =
        some (hostJoin t (pathBase inp.fullName), inp.modTime, inp.modTime) := by
  obtain ⟨mk, op, rd, cl, wr, ch, envv, run, wk, rm⟩ := e
  cases mk with
  | error er => simp [compilerClosure] at h
  | ok t =>
    refine ⟨t, rfl, ?_⟩
    cases hw : walkCollect inp.fullName [] wk <;>
      cases op <;> cases rd <;> cases cl <;> cases wr <;> cases ch <;> cases run <;>
      simp_all [compilerClosure, runBody]

/-! ## The claims -/

/-- C1: when a setup, invocation, or collection phase has already failed
with error E, the call returns E even if the subsequent workspace removal
also fails; when no earlier phase failed, the call's error is exactly the
outcome of the workspace removal (first error wins). -/
theorem c1_first_error_wins (cfg : Config) (e : Effects) (clamp : Option Int)
    (inp : FileReference) :
    (∀ E, firstPhaseErr e inp = some E →
      (compilerClosure cfg e clamp inp).err = some E) ∧
    (firstPhaseErr e inp = none →
      (compilerClosure cfg e clamp inp).err = e.removeAll) := by
  obtain ⟨mk, op, rd, cl, wr, ch, envv, run, wk, rm⟩ := e
  cases hw : walkCollect inp.fullName [] wk <;>
    cases mk <;> cases op <;> cases rd <;> cases cl <;> cases wr <;> cases ch <;>
    cases run <;> simp_all [compilerClosure, runBody, firstPhaseErr]

/-- C1 witness: with a failing compiler run and a failing removal the
compiler error is returned; with only a failing removal the removal error is
returned. -/
theorem c1_first_error_wins_witness :
    (firstPhaseErr { effOk with run := some "exit 1", removeAll := some "rm failed" } inpEx
        = some "exit 1" ∧
      (compilerClosure cfgEx
        { effOk with run := some "exit 1", removeAll := some "rm failed" } none inpEx).err
        = some "exit 1") ∧
    (firstPhaseErr { effOk with removeAll := some "rm failed" } inpEx = none ∧
      (compilerClosure cfgEx
        { effOk with removeAll := some "rm failed" } none inpEx).err
        = some "rm failed") :=
  ⟨⟨by decide,
    (c1_first_error_wins cfgEx
      { effOk with run := some "exit 1", removeAll := some "rm failed" } none inpEx).1
      "exit 1" (by decide)⟩,
   ⟨by decide,
    (c1_first_error_wins cfgEx
      { effOk with removeAll := some "rm failed" } none inpEx).2 (by decide)⟩⟩

/-- C3: for a fixed SourceArtifact, a fixed non-zero ClampTime and a fixed
behaviour of every external effect (the determinism assumption on the
external compiler), two invocations that differ only in the transient
workspace path return identical results: the same map (bytes and metadata)
and the same error. -/
theorem c3_deterministic (cfg : Config) (e : Effects) (u : Int)
    (inp : FileReference) (t1 t2 : String) :
    ((compilerClosure cfg { e with mkdirTemp := .ok t1 } (some u) inp).compiled =
      (compilerClosure cfg { e with mkdirTemp := .ok t2 } (some u) inp).compiled) ∧
    ((compilerClosure cfg { e with mkdirTemp := .ok t1 } (some u) inp).err =
      (compilerClosure cfg { e with mkdirTemp := .ok t2 } (some u) inp).err) := by
  obtain ⟨mk, op, rd, cl, wr, ch, envv, run, wk, rm⟩ := e
  cases hw : walkCollect inp.fullName [] wk <;>
    cases op <;> cases rd <;> cases cl <;> cases wr <;> cases ch <;> cases run <;>
    simp_all [compilerClosure, runBody]

/-- C4: once the temporary workspace was successfully created, the removal
of the whole workspace tree is attempted on every exit path of the call. -/
theorem c4_remove_always_attempted (cfg : Config) (e : Effects)
    (clamp : Option Int) (inp : FileReference) (t : String)
    (h : e.mkdirTemp = .ok t) :
    (compilerClosure cfg e clamp inp).removeAttempted = true := by
  simp [compilerClosure, h]

/-- C4 witness: removal is attempted on a successful run and on a failed
compiler run alike. -/
theorem c4_remove_always_attempted_witness :
    (effOk.mkdirTemp = .ok "/tmp/ocibuild-pycompile.111" ∧
      (compilerClosure cfgEx effOk none inpEx).removeAttempted = true) ∧
    ({ effOk with run := some "exit 1" }.mkdirTemp = .ok "/tmp/ocibuild-pycompile.111" ∧
      (compilerClosure cfgEx { effOk with run := some "exit 1" } none inpEx).removeAttempted
        = true) :=
  ⟨⟨by decide,
    c4_remove_always_attempted cfgEx effOk none inpEx "/tmp/ocibuild-pycompile.111"
      (by decide)⟩,
   ⟨by decide,
    c4_remove_always_attempted cfgEx { effOk with run := some "exit 1" } none inpEx
      "/tmp/ocibuild-pycompile.111" (by decide)⟩⟩

/-- C7: an I/O error while walking the workspace or reading an included
file makes the call return no map at all together with that error, and a
returned map is always the full collection result, never a partial one. -/
theorem c7_no_partial_result (cfg : Config) (e : Effects) (clamp : Option Int)
    (inp : FileReference) :
    (∀ t E, e.mkdirTemp = .ok t → e.openFile = none → e.readAll = none →
      e.closeFile = none → e.writeFile = none → e.chtimes = none → e.run = none →
      walkCollect inp.fullName [] e.walk = .error E →
      (compilerClosure cfg e clamp inp).compiled = none ∧
      (compilerClosure cfg e clamp inp).err = some E) ∧
    (∀ m, (compilerClosure cfg e clamp inp).compiled = some m →
      walkCollect inp.fullName [] e.walk = .ok m) := by
  obtain ⟨mk, op, rd, cl, wr, ch, envv, run, wk, rm⟩ := e
  cases hw : walkCollect inp.fullName [] wk <;>
    cases mk <;> cases op <;> cases rd <;> cases cl <;> cases wr <;> cases ch <;>
    cases run <;> simp_all [compilerClosure, runBody]

/-- C7 witness: a walk error on an otherwise successful run yields no map
and that error; the successful run yields exactly the full collection. -/
theorem c7_no_partial_result_witness :
    (effWalkErr.mkdirTemp = .ok "/tmp/ocibuild-pycompile.111" ∧
      walkCollect inpEx.fullName [] effWalkErr.walk = .error "io error" ∧
      (compilerClosure cfgEx effWalkErr none inpEx).compiled = none ∧
      (compilerClosure cfgEx effWalkErr none inpEx).err = some "io error") ∧
    ((compilerClosure cfgEx effOk none inpEx).compiled = some vfsEx ∧
      walkCollect inpEx.fullName [] effOk.walk = .ok vfsEx) :=
  ⟨⟨by decide, by decide,
    (c7_no_partial_result cfgEx effWalkErr none inpEx).1
      "/tmp/ocibuild-pycompile.111" "io error"
      (by decide) rfl rfl rfl rfl rfl rfl (by decide)⟩,
   ⟨by decide,
    (c7_no_partial_result cfgEx effOk none inpEx).2 vfsEx (by decide)⟩⟩

/-- C2 counterexample: at clamp time 1600000000 the closure's environment is
not the inherited environment plus `HASHSEED=0` and the epoch override, as
the claim states it; the first override the code appends is
`PYTHONHASHSEED=0`. -/
theorem c2_counterexample :
    ¬ ((compilerClosure cfgEx effOk (some 1600000000) inpEx).cmd.map Cmd.env =
      some (some (effOk.environ ++ ["HASHSEED=0", "SOURCE_DATE_EPOCH=1600000000"]))) := by
  decide

/-- C2 (amended): a zero ClampTime leaves the process environment untouched;
a non-zero ClampTime makes it the inherited environment plus exactly the two
overrides `PYTHONHASHSEED=0` and `SOURCE_DATE_EPOCH=<unix-seconds>`. -/
theorem c2_clamp_env (cfg : Config) (e : Effects) (clamp : Option Int)
    (inp : FileReference) (c : Cmd)
    (h : (compilerClosure cfg e clamp inp).cmd = some c) :
    (clamp = none → c.env = none) ∧
    (∀ u, clamp = some u →
      c.env = some (e.environ ++
        ["PYTHONHASHSEED=0", "SOURCE_DATE_EPOCH=" ++ toString u])) := by
  obtain ⟨t, -, hc, -, -⟩ := closure_cmd_spec cfg e clamp inp c h
  subst hc
  constructor
  · intro h0; subst h0; rfl
  · intro u hu; subst hu; rfl

/-- C2 witness: the clamped run carries exactly the two overrides, the
unclamped run leaves `Env` unset. -/
theorem c2_clamp_env_witness :
    ((compilerClosure cfgEx effOk (some 1600000000) inpEx).cmd = some cmdClampEx ∧
      cmdClampEx.env = some (effOk.environ ++
        ["PYTHONHASHSEED=0", "SOURCE_DATE_EPOCH=" ++ toString (1600000000 : Int)])) ∧
    ((compilerClosure cfgEx effOk none inpEx).cmd = some cmdNoClampEx ∧
      cmdNoClampEx.env = none) :=
  ⟨⟨by decide,
    (c2_clamp_env cfgEx effOk (some 1600000000) inpEx cmdClampEx (by decide)).2
      1600000000 rfl⟩,
   ⟨by decide,
    (c2_clamp_env cfgEx effOk none inpEx cmdNoClampEx (by decide)).1 rfl⟩⟩

/-- C5: the collector skips the workspace root, includes directory entries
unconditionally, includes a non-directory entry exactly when its path ends
in `.pyc`, silently (without error) excludes all other files, and the
`.pyc` test on the path agrees with the test on the entry's base name. -/
theorem c5_collector_filter (inFullName : String)
    (vfs : List (String × InMemFileReference)) (w : WalkEntry)
    (hwe : w.walkErr = none) :
    (w.p = "." → collectStep inFullName vfs w = .ok vfs) ∧
    (¬ w.p = "." → w.isDir = true → ∀ info, w.infoRes = .ok info →
      collectStep inFullName vfs w =
        .ok (mapInsert (vfsKey inFullName w.p)
              ⟨info, vfsKey inFullName w.p, []⟩ vfs)) ∧
    (¬ w.p = "." → w.isDir = false → hasSuffix w.p ".pyc" = false →
      collectStep inFullName vfs w = .ok vfs) ∧
    (¬ w.p = "." → w.isDir = false → hasSuffix w.p ".pyc" = true →
      ∀ info content, w.infoRes = .ok info → w.openRes = none →
      w.readRes = .ok content →
      collectStep inFullName vfs w =
        .ok (mapInsert (vfsKey inFullName w.p)
              ⟨info, vfsKey inFullName w.p, content⟩ vfs)) ∧
    (¬ w.p.data = [] → ¬ w.p.data.getLast? = some '/' →
      hasSuffix w.p ".pyc" = hasSuffix (pathBase w.p) ".pyc") := by
  refine ⟨?_, ?_, ?_, ?_, ?_⟩
  · intro hp
    simp [collectStep, hwe, hp]
  · intro hp hd info hinfo
    simp [collectStep, hwe, hp, hd, hinfo]
  · intro hp hd hs
    simp [collectStep, hwe, hp, hd, hs]
  · intro hp hd hs info content hinfo hopen hread
    simp [collectStep, hwe, hp, hd, hs, hinfo, hopen, hread]
  · intro h1 h2
    exact (hasSuffix_pathBase w.p h1 h2).symm

/-- C5 witness: the stray `mod.py` is silently excluded, the compiled
`.pyc` file is inserted under its virtual key. -/
theorem c5_collector_filter_witness :
    (entStrayEx.walkErr = none ∧ hasSuffix entStrayEx.p ".pyc" = false ∧
      collectStep inpEx.fullName [] entStrayEx = .ok []) ∧
    (entPycEx.walkErr = none ∧ hasSuffix entPycEx.p ".pyc" = true ∧
      collectStep inpEx.fullName [] entPycEx =
        .ok [("pkg/__pycache__/mod.cpython-39.pyc",
              ⟨infoPycEx, "pkg/__pycache__/mod.cpython-39.pyc",
               [1, 2, 3, 4, 5, 6, 7]⟩)]) :=
  ⟨⟨rfl, by decide,
    (c5_collector_filter inpEx.fullName [] entStrayEx rfl).2.2.1
      (by decide) rfl (by decide)⟩,
   ⟨rfl, by decide,
    (c5_collector_filter inpEx.fullName [] entPycEx rfl).2.2.2.1
      (by decide) rfl (by decide) infoPycEx [1, 2, 3, 4, 5, 6, 7] rfl rfl rfl⟩⟩

/-- C6: the key of an included workspace entry is the forward-slash join of
the SourceArtifact's virtual directory with the entry's relative slash-path
(for directories and paths made of plain name segments). -/
theorem c6_virtual_key (inp : FileReference) (p : String)
    (hd : goodRel (pathDir inp.fullName)) (hp : goodRel p) :
    vfsKey inp.fullName p = pathDir inp.fullName ++ "/" ++ p :=
  pathJoin2_good _ _ hd hp

/-- C6 witness: the SourceArtifact `pkg/mod.py` yields the key
`pkg/__pycache__/mod.cpython-39.pyc` for the compiled file. -/
theorem c6_virtual_key_witness :
    (goodRel (pathDir inpEx.fullName) ∧ goodRel "__pycache__/mod.cpython-39.pyc") ∧
    vfsKey inpEx.fullName "__pycache__/mod.cpython-39.pyc" =
      "pkg/__pycache__/mod.cpython-39.pyc" :=
  ⟨⟨by decide, by decide⟩,
   (c6_virtual_key inpEx "__pycache__/mod.cpython-39.pyc"
      (by decide) (by decide)).trans (by decide)⟩

/-- C8: the command line is the configured fixed arguments, then `-p` with
the virtual directory joined under the virtual root `/`, then the base name
of the file to compile; the working directory is the workspace. -/
theorem c8_cmdline (cfg : Config) (e : Effects) (clamp : Option Int)
    (inp : FileReference) (t : String) (c : Cmd)
    (hmk : e.mkdirTemp = .ok t)
    (h : (compilerClosure cfg e clamp inp).cmd = some c) :
    c.exe = cfg.exe ∧
    c.args = cfg.rest ++ ["-p", pathJoin2 "/" (pathDir inp.fullName), inp.name] ∧
    c.dir = t := by
  obtain ⟨t', hmk', hc, -, -⟩ := closure_cmd_spec cfg e clamp inp c h
  rw [hmk] at hmk'
  injection hmk' with ht
  subst ht
  subst hc
  exact ⟨rfl, rfl, rfl⟩

/-- C8 witness: for `pkg/mod.py` the arguments are
`-m compileall -p /pkg mod.py` and the working directory is the workspace. -/
theorem c8_cmdline_witness :
    (effOk.mkdirTemp = .ok "/tmp/ocibuild-pycompile.111" ∧
      (compilerClosure cfgEx effOk none inpEx).cmd = some cmdNoClampEx) ∧
    (cmdNoClampEx.exe = cfgEx.exe ∧
      cmdNoClampEx.args =
        cfgEx.rest ++ ["-p", pathJoin2 "/" (pathDir inpEx.fullName), inpEx.name] ∧
      cmdNoClampEx.dir = "/tmp/ocibuild-pycompile.111") :=
  ⟨⟨by decide, by decide⟩,
   c8_cmdline cfgEx effOk none inpEx "/tmp/ocibuild-pycompile.111" cmdNoClampEx
     (by decide) (by decide)⟩

/-- C9: when the invocation phase is reached, the input's content has been
written into the workspace under its base name only, and the copied file's
access and modification times both equal the SourceArtifact's modification
time. -/
theorem c9_input_copied (cfg : Config) (e : Effects) (clamp : Option Int)
    (inp : FileReference) (t : String) (c : Cmd)
    (hmk : e.mkdirTemp = .ok t)
    (h : (compilerClosure cfg e clamp inp).cmd = some c) :
    (compilerClosure cfg e clamp inp).wsWrite =
      some (hostJoin t (pathBase inp.fullName), inp.content) ∧
    (compilerClosure cfg e clamp inp).wsChtimes =
      some (hostJoin t (pathBase inp.fullName), inp.modTime, inp.modTime) := by
  obtain ⟨t', hmk', -, hwr, hch⟩ := closure_cmd_spec cfg e clamp inp c h
  rw [hmk] at hmk'
  injection hmk' with ht
  subst ht
  exact ⟨hwr, hch⟩

/-- C9 witness: `pkg/mod.py` is copied to `<workspace>/mod.py` (base name
only) with both times set to its modification time 1600000000. -/
theorem c9_input_copied_witness :
    (effOk.mkdirTemp = .ok "/tmp/ocibuild-pycompile.111" ∧
      (compilerClosure cfgEx effOk none inpEx).cmd = some cmdNoClampEx ∧
      pathBase inpEx.fullName = "mod.py") ∧
    ((compilerClosure cfgEx effOk none inpEx).wsWrite =
      some (hostJoin "/tmp/ocibuild-pycompile.111" (pathBase inpEx.fullName),
            inpEx.content) ∧
     (compilerClosure cfgEx effOk none inpEx).wsChtimes =
      some (hostJoin "/tmp/ocibuild-pycompile.111" (pathBase inpEx.fullName),
            inpEx.modTime, inpEx.modTime)) :=
  ⟨⟨by decide, by decide, by decide⟩,
   c9_input_copied cfgEx effOk none inpEx "/tmp/ocibuild-pycompile.111" cmdNoClampEx
     (by decide) (by decide)⟩

/-- C10: `ExternalCompiler` panics on its `cmdline[0]` access exactly when
called with an empty command line; with a non-empty command line it never
panics (it resolves the program or returns an error value). -/
theorem c10_empty_cmdline_panics (lookPath abs : String → Except String String)
    (cmdline : List String) :
    ExternalCompiler lookPath abs cmdline = .panicked ↔ cmdline = [] := by
  cases cmdline with
  | nil => simp [ExternalCompiler]
  | cons prog rest =>
    constructor
    · intro h
      exfalso
      cases hl : lookPath prog with
      | error er => simp [ExternalCompiler, hl] at h
      | ok exe =>
        cases ha : abs exe with
        | error er => simp [ExternalCompiler, hl, ha] at h
        | ok x => simp [ExternalCompiler, hl, ha] at h
    · intro h
      exact absurd h (by simp)

/-- C10 witness: the empty command line panics, a normal one does not. -/
theorem c10_empty_cmdline_panics_witness :
    ExternalCompiler lookPathEx absEx [] = .panicked ∧
    ¬ ExternalCompiler lookPathEx absEx ["python3", "-m", "compileall"] = .panicked :=
  ⟨(c10_empty_cmdline_panics lookPathEx absEx []).mpr rfl,
   fun hc => by
     simpa using (c10_empty_cmdline_panics lookPathEx absEx
       ["python3", "-m", "compileall"]).mp hc⟩

end PyCompile
